import Mathlib

/-!
Shallow embedding of the perfect-clear solver core (Rust sources under
`src/`): the bit-packed board (`board.rs`), piece geometry (`piece.rs`),
rotation system and kick table (`rotation.rs`, `config.rs`), the game
reducer (`game.rs`), the search-state reducer (`state.rs`) and the
placement enumerator (`solver.rs`), followed by theorems checking the
specification's claims against these definitions.

Machine integers are embedded as `Int`/`Nat`: the board's `u64` bitfield
only ever has bits `0..59` set (both `fill` and `is_filled` guard
`0 ≤ x < 10`, `0 ≤ y < 6`), so no wraparound can occur and `Nat` is a
faithful model.  Fallible operations return `Except`.
-/

set_option maxRecDepth 100000

namespace PerfectClear

/-- Decidable equality of `Except` results, so concrete reducer outcomes
can be checked by `decide`. -/
instance exceptDecEq {ε α : Type} [DecidableEq ε] [DecidableEq α] :
    DecidableEq (Except ε α)
  | .ok a, .ok b =>
    if h : a = b then .isTrue (by rw [h]) else .isFalse (by simp [h])
  | .ok _, .error _ => .isFalse (by simp)
  | .error _, .ok _ => .isFalse (by simp)
  | .error e, .error f =>
    if h : e = f then .isTrue (by rw [h]) else .isFalse (by simp [h])

/-- 2-D signed integer point (`utils/point.rs`, `Point`). -/
structure Point where
  x : Int
  y : Int
deriving DecidableEq, Repr

instance : Add Point := ⟨fun p q => ⟨p.x + q.x, p.y + q.y⟩⟩

@[simp] theorem Point.add_def (p q : Point) : p + q = ⟨p.x + q.x, p.y + q.y⟩ := rfl

/-- The seven tetromino kinds (`piece.rs`, `PieceKind`). -/
inductive PieceKind
  | I | J | L | O | S | T | Z
deriving DecidableEq, Repr

/-- All piece kinds in declaration order (`piece.rs`, `PIECE_KINDS`). -/
def PIECE_KINDS : List PieceKind := [.I, .J, .L, .O, .S, .T, .Z]

/-- Piece orientation (`rotation.rs`, `Orientation`). -/
inductive Orientation
  | North | South | East | West
deriving DecidableEq, Repr

/-- A rotation step (`rotation.rs`). -/
inductive Rtn
  | Clockwise | AntiClockwise | Half
deriving DecidableEq, Repr

/-- `Orientation::rotated` (`rotation.rs`): the Cayley table. -/
def Orientation.rotated : Orientation → Rtn → Orientation
  | .North, .Clockwise => .East
  | .North, .AntiClockwise => .West
  | .North, .Half => .South
  | .South, .Clockwise => .West
  | .South, .AntiClockwise => .East
  | .South, .Half => .North
  | .East, .Clockwise => .South
  | .East, .AntiClockwise => .North
  | .East, .Half => .West
  | .West, .Clockwise => .North
  | .West, .AntiClockwise => .South
  | .West, .Half => .East

/-- Translation direction (`utils/direction.rs`). -/
inductive Direction
  | Left | Right | Down
deriving DecidableEq, Repr

/-- `Direction::get_offset` (`utils/direction.rs`). -/
def Direction.get_offset : Direction → Point
  | .Down => ⟨0, -1⟩
  | .Left => ⟨-1, 0⟩
  | .Right => ⟨1, 0⟩

/-- The bit-packed playfield (`board.rs`, `Board`).  Bit `x + y*10` of
`fill` is the state of cell `(x, y)`; the solver window is the bottom
6 rows (4 PC rows plus 2 spawn-buffer rows). -/
structure Board where
  fill : Nat
deriving DecidableEq, Repr

/-- `Board::empty_board`. -/
def empty_board : Board := ⟨0⟩

/-- `Board::filled_board` (sixty 1-bits). -/
def filled_board : Board := ⟨2 ^ 60 - 1⟩

/-- `Board::ONE_PC_FILL`: bottom row fully set. -/
def ONE_PC_FILL : Nat := 2 ^ 10 - 1

/-- `Board::TWO_PC_FILL`: bottom two rows fully set. -/
def TWO_PC_FILL : Nat := 2 ^ 20 - 1

/-- `Board::THREE_PC_FILL`: bottom three rows fully set. -/
def THREE_PC_FILL : Nat := 2 ^ 30 - 1

/-- `Board::FOUR_PC_FILL`: bottom four rows fully set. -/
def FOUR_PC_FILL : Nat := 2 ^ 40 - 1

/-- `Board::PC_FILLS`. -/
def PC_FILLS : List Nat := [ONE_PC_FILL, TWO_PC_FILL, THREE_PC_FILL, FOUR_PC_FILL]

/-- `Board::is_filled` (`board.rs` lines 89-97): walls (`x = -1`, `x = 10`)
and the floor (`y = -1`) read as filled, cells above the 6-row window read
as empty, and in-window cells read bit `x + y*10`. -/
def Board.is_filled (b : Board) (at_ : Point) : Bool :=
  if at_.x < 0 ∨ 10 ≤ at_.x ∨ at_.y < 0 then true
  else if 6 ≤ at_.y then false
  else (b.fill >>> (at_.x + at_.y * 10).toNat) &&& 1 == 1

/-- `Board::fill` (`board.rs` lines 99-104): set a bit; out-of-range points
are silently ignored.  (Named `fill_cell` here because `fill` is the field.) -/
def Board.fill_cell (b : Board) (point : Point) : Board :=
  if point.x < 0 ∨ 10 ≤ point.x ∨ point.y < 0 ∨ 6 ≤ point.y then b
  else ⟨b.fill ||| (1 <<< (point.x + point.y * 10).toNat)⟩

/-- `Board::is_empty_board`. -/
def Board.is_empty_board (b : Board) : Bool := b.fill == 0

/-- `Board::has_intersect`. -/
def Board.has_intersect (b other : Board) : Bool := 0 < b.fill &&& other.fill

/-- `Board::union`. -/
def Board.union (b other : Board) : Board := ⟨b.fill ||| other.fill⟩

/-- `Board::can_fit` (`board.rs` lines 125-127): none of the piece points
reads filled. -/
def Board.can_fit (b : Board) (piece_points : List Point) : Bool :=
  piece_points.all fun point => !(b.is_filled point)

/-- `Board::can_place` (`board.rs` lines 129-134): some piece point shifted
by (0, -1) reads filled.  Note the source does NOT check `can_fit` here. -/
def Board.can_place (b : Board) (piece_points : List Point) : Bool :=
  let offset : Point := ⟨0, -1⟩
  piece_points.any fun point => b.is_filled (point + offset)

/-- `Board::fill_piece_points`. -/
def Board.fill_piece_points (b : Board) (piece_points : List Point) : Board :=
  piece_points.foldl Board.fill_cell b

/-- `Board::is_line_filled`. -/
def Board.is_line_filled (b : Board) (y : Int) : Bool :=
  (List.range 10).all fun x => b.is_filled ⟨(x : Int), y⟩

/-- `Board::is_line_empty`. -/
def Board.is_line_empty (b : Board) (y : Int) : Bool :=
  (List.range 10).all fun x => !(b.is_filled ⟨(x : Int), y⟩)

/-- `Board::can_perfect_clear` (`board.rs` lines 150-152): the board equals
one of the four canonical row-mask boards. -/
def Board.can_perfect_clear (b : Board) : Bool :=
  PC_FILLS.any fun fill => b.fill == fill

/-- Inner loop of `Board::clear_filled_lines`: copy the filled cells of row
`y` of `src` into row `next_y` of `dst` (the `for x in 0..10` loop). -/
def copy_row (src dst : Board) (y next_y : Int) : Board :=
  (List.range 10).foldl
    (fun acc x =>
      if src.is_filled ⟨(x : Int), y⟩ then acc.fill_cell ⟨(x : Int), next_y⟩ else acc)
    dst

/-- One iteration of the `for y in 0..6` loop of `clear_filled_lines`:
skip a fully filled row, otherwise copy it to row `next_y` (the running
count of surviving rows) and advance `next_y`. -/
def clear_step (b : Board) (acc : Board × Int) (y : Nat) : Board × Int :=
  if b.is_line_filled (y : Int) then acc
  else (copy_row b acc.1 (y : Int) acc.2, acc.2 + 1)

/-- `Board::clear_filled_lines` (`board.rs` lines 154-169): rebuild the
board bottom-up, skipping fully filled rows. -/
def Board.clear_filled_lines (b : Board) : Board :=
  ((List.range 6).foldl (clear_step b) (empty_board, 0)).1

/-- `PieceKind::get_spawn_point` (`piece.rs` lines 48-60, SRS). -/
def PieceKind.get_spawn_point : PieceKind → Point
  | .I => ⟨3, 18⟩
  | .J => ⟨3, 19⟩
  | .L => ⟨3, 19⟩
  | .O => ⟨3, 19⟩
  | .S => ⟨3, 19⟩
  | .T => ⟨3, 19⟩
  | .Z => ⟨3, 19⟩

/-- `PieceKind::get_position_offsets` (`piece.rs` lines 69-114): the four
cell offsets in the North orientation. -/
def PieceKind.get_position_offsets : PieceKind → List Point
  | .I => [⟨0, 2⟩, ⟨1, 2⟩, ⟨2, 2⟩, ⟨3, 2⟩]
  | .J => [⟨0, 2⟩, ⟨0, 1⟩, ⟨1, 1⟩, ⟨2, 1⟩]
  | .L => [⟨2, 2⟩, ⟨0, 1⟩, ⟨1, 1⟩, ⟨2, 1⟩]
  | .O => [⟨1, 2⟩, ⟨2, 2⟩, ⟨1, 1⟩, ⟨2, 1⟩]
  | .S => [⟨1, 2⟩, ⟨2, 2⟩, ⟨0, 1⟩, ⟨1, 1⟩]
  | .T => [⟨1, 2⟩, ⟨0, 1⟩, ⟨1, 1⟩, ⟨2, 1⟩]
  | .Z => [⟨0, 2⟩, ⟨1, 2⟩, ⟨1, 1⟩, ⟨2, 1⟩]

/-- `PieceKind::get_bounding_box_size` (`piece.rs` lines 116-126). -/
def PieceKind.get_bounding_box_size : PieceKind → Nat
  | .I => 4
  | .J => 3
  | .L => 3
  | .O => 4
  | .S => 3
  | .T => 3
  | .Z => 3

/-- A piece: kind, bottom-left corner of its bounding box, orientation
(`piece.rs`, `Piece`). -/
structure Piece where
  kind : PieceKind
  position : Point
  orientation : Orientation
deriving DecidableEq, Repr

/-- `Piece::spawn` (`piece.rs` lines 141-148): North orientation at the
configured spawn point. -/
def Piece.spawn (kind : PieceKind) : Piece :=
  { kind := kind, position := kind.get_spawn_point, orientation := .North }

/-- `orient_offset_box` (`piece.rs` lines 168-189) applied to one offset:
the orientation transform for a bounding box of side `s1 + 1`. -/
def orient_offset (s1 : Int) (o : Orientation) (p : Point) : Point :=
  match o with
  | .North => p
  | .South => ⟨s1 - p.x, s1 - p.y⟩
  | .East => ⟨p.y, s1 - p.x⟩
  | .West => ⟨s1 - p.y, p.x⟩

/-- `Piece::get_points` (`piece.rs` lines 159-166): orient the offsets and
translate by the piece position. -/
def Piece.get_points (pc : Piece) : List Point :=
  let s1 : Int := (pc.kind.get_bounding_box_size : Int) - 1
  pc.kind.get_position_offsets.map fun offset =>
    orient_offset s1 pc.orientation offset + pc.position

/-- Kick table selector (`config.rs`, `Kick`). -/
inductive Kick
  | SRS
deriving DecidableEq, Repr

/-- Solver configuration (`config.rs`, `Config`). -/
structure Config where
  kick : Kick
  soft_drop_allowed : Bool
deriving DecidableEq, Repr

/-- `Config::default`. -/
def Config.default : Config := { kick := .SRS, soft_drop_allowed := false }

/-- `Config::kick_table` (`config.rs` lines 27-140): the ordered kick
candidates for a rotation of `piece_kind` from `from_o` to `to_o`;
`none` for the O piece and for transitions without an entry. -/
def Config.kick_table (cfg : Config) (piece_kind : PieceKind)
    (from_o to_o : Orientation) : Option (List Point) :=
  match cfg.kick with
  | .SRS =>
    match piece_kind with
    | .O => none
    | .I =>
      match from_o, to_o with
      | .North, .East => some [⟨-2, 0⟩, ⟨1, 0⟩, ⟨-2, -1⟩, ⟨1, 2⟩]
      | .East, .North => some [⟨2, 0⟩, ⟨-1, 0⟩, ⟨2, 1⟩, ⟨-1, -2⟩]
      | .East, .South => some [⟨-1, 0⟩, ⟨2, 0⟩, ⟨-1, 2⟩, ⟨2, -1⟩]
      | .South, .East => some [⟨1, 0⟩, ⟨-2, 0⟩, ⟨1, -2⟩, ⟨-2, 1⟩]
      | .South, .West => some [⟨2, 0⟩, ⟨-1, 0⟩, ⟨2, 1⟩, ⟨-1, -2⟩]
      | .West, .South => some [⟨-2, 0⟩, ⟨1, 0⟩, ⟨-2, -1⟩, ⟨1, 2⟩]
      | .West, .North => some [⟨1, 0⟩, ⟨-2, 0⟩, ⟨1, -2⟩, ⟨-2, 1⟩]
      | .North, .West => some [⟨-1, 0⟩, ⟨2, 0⟩, ⟨-1, 2⟩, ⟨2, -1⟩]
      | _, _ => none
    | _ =>
      match from_o, to_o with
      | .North, .East => some [⟨-1, 0⟩, ⟨-1, 1⟩, ⟨0, -2⟩, ⟨-1, -2⟩]
      | .East, .North => some [⟨1, 0⟩, ⟨1, -1⟩, ⟨0, 2⟩, ⟨1, 2⟩]
      | .East, .South => some [⟨1, 0⟩, ⟨1, -1⟩, ⟨0, 2⟩, ⟨1, 2⟩]
      | .South, .East => some [⟨-1, 0⟩, ⟨-1, 1⟩, ⟨0, -2⟩, ⟨-1, -2⟩]
      | .South, .West => some [⟨1, 0⟩, ⟨1, 1⟩, ⟨0, -2⟩, ⟨1, -2⟩]
      | .West, .South => some [⟨-1, 0⟩, ⟨-1, -1⟩, ⟨0, 2⟩, ⟨-1, 2⟩]
      | .West, .North => some [⟨-1, 0⟩, ⟨-1, -1⟩, ⟨0, 2⟩, ⟨-1, 2⟩]
      | .North, .West => some [⟨1, 0⟩, ⟨1, 1⟩, ⟨0, -2⟩, ⟨1, -2⟩]
      | _, _ => none

/-- A move primitive (`game.rs`, `Move`). -/
inductive Mv
  | Rotate (rotation : Rtn)
  | Translate (direction : Direction)
  | Drop
deriving DecidableEq, Repr

/-- `Config::possible_moves` (`config.rs` lines 142-154). -/
def Config.possible_moves (cfg : Config) : List Mv :=
  [.Rotate .Clockwise, .Rotate .AntiClockwise, .Drop,
   .Translate .Left, .Translate .Right] ++
  (if cfg.soft_drop_allowed then [.Translate .Down] else [])

/-- A reducer action (`game.rs`, `Action`). -/
inductive Action
  | Move (mov : Mv)
  | Hold (switch : Bool)
  | Place
deriving DecidableEq, Repr

/-- `game.rs`, `MoveError`. -/
inductive MoveError
  | NoPiece
  | InvalidMove
deriving DecidableEq, Repr

/-- `game.rs`, `HoldError`. -/
inductive HoldError
  | NotAvailable
  | NoHoldPiece
  | NoPiece
  | PieceCollision
deriving DecidableEq, Repr

/-- `game.rs`, `PlaceError`. -/
inductive PlaceError
  | NoPiece
  | PieceInAir
deriving DecidableEq, Repr

/-- `game.rs`, `ReduceError`. -/
inductive ReduceError
  | Move (e : MoveError)
  | Hold (e : HoldError)
  | Place (e : PlaceError)
deriving DecidableEq, Repr

/-- The game snapshot (`game.rs`, `Game`): board, optional active piece,
optional hold kind, hold-used flag, and the fixed-capacity queue (a
sequence of `Option PieceKind` slots). -/
structure Game where
  board : Board
  piece : Option Piece
  hold_kind : Option PieceKind
  is_hold_used : Bool
  queue : List (Option PieceKind)
deriving DecidableEq, Repr

/-- `Game::initial`. -/
def Game.initial : Game :=
  { board := empty_board, piece := none, hold_kind := none,
    is_hold_used := false, queue := List.replicate 7 none }

/-- The `for kick in kicks` loop of `Game::with_rotated_piece`
(`game.rs` lines 83-92): accept the first kick whose translated points fit. -/
def Game.try_kicks (g : Game) (rotated : Piece) (piece_points : List Point) :
    List Point → Except MoveError Game
  | [] => .error .InvalidMove
  | kick :: rest =>
    if g.board.can_fit (piece_points.map (· + kick)) then
      .ok { g with piece := some { rotated with position := rotated.position + kick } }
    else
      g.try_kicks rotated piece_points rest

/-- `Game::with_rotated_piece` (`game.rs` lines 58-95). -/
def Game.with_rotated_piece (g : Game) (cfg : Config) (rotation : Rtn) :
    Except MoveError Game :=
  match g.piece with
  | none => .error .NoPiece
  | some piece =>
    let from_orientation := piece.orientation
    let to_orientation := from_orientation.rotated rotation
    let rotated_piece : Piece := { piece with orientation := to_orientation }
    let piece_points := rotated_piece.get_points
    if g.board.can_fit piece_points then
      .ok { g with piece := some rotated_piece }
    else
      match cfg.kick_table piece.kind from_orientation to_orientation with
      | none => .error .InvalidMove
      | some kicks => g.try_kicks rotated_piece piece_points kicks

/-- `Game::with_translated_piece` (`game.rs` lines 97-123). -/
def Game.with_translated_piece (g : Game) (direction : Direction) :
    Except MoveError Game :=
  match g.piece with
  | none => .error .NoPiece
  | some piece =>
    let next_piece : Piece := { piece with position := piece.position + direction.get_offset }
    if !(g.board.can_fit next_piece.get_points) then .error .InvalidMove
    else .ok { g with piece := some next_piece }

/-- The `while` loop of `Game::with_dropped_piece` (`game.rs` lines
132-134), with explicit fuel.  Every oriented offset has a non-negative
y-component, so once `position.y ≤ -4` some point lies below the floor and
`can_fit` fails; `position.y.toNat + 8` iterations therefore always reach
the loop's exit condition, and the fuel never runs out on the path the
source takes. -/
def drop_loop (b : Board) : Nat → Piece → Piece
  | 0, p => p
  | fuel + 1, p =>
    if b.can_fit p.get_points then
      drop_loop b fuel { p with position := ⟨p.position.x, p.position.y - 1⟩ }
    else p

/-- `Game::with_dropped_piece` (`game.rs` lines 125-145). -/
def Game.with_dropped_piece (g : Game) : Except MoveError Game :=
  match g.piece with
  | none => .error .NoPiece
  | some piece =>
    let stopped := drop_loop g.board (piece.position.y.toNat + 8) piece
    let dropped_piece : Piece :=
      { stopped with position := ⟨stopped.position.x, stopped.position.y + 1⟩ }
    if dropped_piece.position.y == piece.position.y then .error .InvalidMove
    else .ok { g with piece := some dropped_piece }

/-- `Game::with_moved_piece` (`game.rs` lines 50-56). -/
def Game.with_moved_piece (g : Game) (cfg : Config) : Mv → Except MoveError Game
  | .Rotate rotation => g.with_rotated_piece cfg rotation
  | .Translate direction => g.with_translated_piece direction
  | .Drop => g.with_dropped_piece

/-- `Game::with_hold_used` (`game.rs` lines 147-179). -/
def Game.with_hold_used (g : Game) (switch : Bool) : Except HoldError Game :=
  if g.is_hold_used then .error .NotAvailable
  else if !switch then .ok { g with is_hold_used := true }
  else
    match g.hold_kind with
    | none => .error .NoHoldPiece
    | some hold_kind =>
      let next_piece := Piece.spawn hold_kind
      if !(g.board.can_fit next_piece.get_points) then .error .PieceCollision
      else
        match g.piece with
        | none => .error .NoPiece
        | some piece =>
          .ok { g with is_hold_used := true, piece := some next_piece,
                       hold_kind := some piece.kind }

/-- `Game::with_placed_piece` (`game.rs` lines 181-206): require
`can_place`, fill the four cells, clear lines unless the filled board is a
canonical PC mask, drop the active piece and reset the hold flag. -/
def Game.with_placed_piece (g : Game) : Except PlaceError Game :=
  match g.piece with
  | none => .error .NoPiece
  | some piece =>
    let piece_points := piece.get_points
    if !(g.board.can_place piece_points) then .error .PieceInAir
    else
      let next_board := g.board.fill_piece_points piece_points
      let next_board :=
        if !next_board.can_perfect_clear then next_board.clear_filled_lines
        else next_board
      .ok { g with board := next_board, piece := none, is_hold_used := false }

/-- `Game::reduce` (`game.rs` lines 36-48). -/
def Game.reduce (g : Game) (cfg : Config) : Action → Except ReduceError Game
  | .Move mov => (g.with_moved_piece cfg mov).mapError ReduceError.Move
  | .Hold switch => (g.with_hold_used switch).mapError ReduceError.Hold
  | .Place => g.with_placed_piece.mapError ReduceError.Place

/-! ## The search-state reducer (`state.rs`)

`state.rs` ships its own game-snapshot struct with the same fields as
`game.rs`'s `Game`, so the `Game` structure above is reused for its data.
Its reducer differs from the game reducer: spawn collisions yield
`GameOver`, its move set has no `Drop`, and its `Place` neither clears
lines nor touches `is_hold_used`.  The `f32` field `current_prob` is
floating-point state never queried by any claim and is omitted. -/

/-- `state.rs`, `HoldError` (no `PieceCollision` variant there). -/
inductive SHoldError
  | NotAvailable
  | NoHoldPiece
  | NoPiece
deriving DecidableEq, Repr

/-- `state.rs`, `MoveError`. -/
inductive SMoveError
  | NoPiece
  | InvalidMove
deriving DecidableEq, Repr

/-- `state.rs`, `ConsumeQueueError`. -/
inductive ConsumeQueueError
  | QueueEmpty
deriving DecidableEq, Repr

/-- `state.rs`, `PlaceError`. -/
inductive SPlaceError
  | NoPiece
  | PieceInAir
deriving DecidableEq, Repr

/-- `state.rs`, `ReduceError`. -/
inductive SReduceError
  | Place (e : SPlaceError)
  | ConsumeQueue (e : ConsumeQueueError)
  | Hold (e : SHoldError)
  | Move (e : SMoveError)
  | GameOver
  | NoPerfectClear
deriving DecidableEq, Repr

/-- `state.rs`, `Move` (rotate or translate only; no hard drop). -/
inductive SMv
  | Rotate (rotation : Rtn)
  | Translate (direction : Direction)
deriving DecidableEq, Repr

/-- `state.rs`, `Action`.  `GuessNext` carries an `f32` probability in the
source; it only scales the omitted `current_prob` field and is dropped. -/
inductive SAction
  | ConsumeQueue
  | GuessNext (kind : PieceKind)
  | Hold (switch : Bool)
  | Move (mov : SMv)
  | Place
deriving DecidableEq, Repr

/-- The search state (`state.rs`, `State`, minus the `f32` probability). -/
structure State where
  game : Game
  seen : List (Option PieceKind)
  moves_remaining : Int
deriving DecidableEq, Repr

/-- `State::initial` (`state.rs` lines 70-84). -/
def State.initial : State :=
  { game := { board := empty_board, piece := none, hold_kind := none,
              is_hold_used := false, queue := List.replicate 7 none },
    seen := List.replicate 14 none,
    moves_remaining := 10 }

/-- `srs::kick_table` (`solver/src/config.rs`), used by `state.rs`: its
entries coincide with `Config::kick_table` under the SRS kick. -/
def srs_kick_table (piece_kind : PieceKind) (from_o to_o : Orientation) :
    Option (List Point) :=
  Config.default.kick_table piece_kind from_o to_o

/-- `State::with_consumed_queue` (`state.rs` lines 96-120): pop the queue
head, spawn it, `GameOver` if it cannot fit, reset `is_hold_used`. -/
def State.with_consumed_queue (s : State) : Except SReduceError State :=
  match s.game.queue with
  | some next_piece_kind :: rest_piece_kinds =>
    let next_piece := Piece.spawn next_piece_kind
    if !(s.game.board.can_fit next_piece.get_points) then .error .GameOver
    else
      .ok { s with game := { s.game with
              queue := rest_piece_kinds ++ [none],
              piece := some next_piece,
              is_hold_used := false } }
  | _ => .error (.ConsumeQueue .QueueEmpty)

/-- `State::with_guessed_next` (`state.rs` lines 122-143): spawn the
guessed kind, `GameOver` if it cannot fit.  Note the source does NOT reset
`is_hold_used` here. -/
def State.with_guessed_next (s : State) (kind : PieceKind) :
    Except SReduceError State :=
  let next_piece := Piece.spawn kind
  if !(s.game.board.can_fit next_piece.get_points) then .error .GameOver
  else .ok { s with game := { s.game with piece := some next_piece } }

/-- `State::with_hold_used` (`state.rs` lines 145-185). -/
def State.with_hold_used (s : State) (switch : Bool) : Except SReduceError State :=
  if s.game.is_hold_used then .error (.Hold .NotAvailable)
  else if !switch then
    .ok { s with game := { s.game with is_hold_used := true } }
  else
    match s.game.hold_kind with
    | none => .error (.Hold .NoHoldPiece)
    | some hold_kind =>
      let next_piece := Piece.spawn hold_kind
      if !(s.game.board.can_fit next_piece.get_points) then .error .GameOver
      else
        match s.game.piece with
        | none => .error (.Hold .NoPiece)
        | some piece =>
          .ok { s with game := { s.game with
                  is_hold_used := true,
                  piece := some next_piece,
                  hold_kind := some piece.kind } }

/-- Kick loop of `State::with_rotation` (`state.rs` lines 223-236). -/
def State.try_kicks (s : State) (rotated : Piece) (piece_points : List Point) :
    List Point → Except SReduceError State
  | [] => .error (.Move .InvalidMove)
  | kick :: rest =>
    if s.game.board.can_fit (piece_points.map (· + kick)) then
      .ok { s with game := { s.game with
              piece := some { rotated with position := rotated.position + kick } } }
    else
      s.try_kicks rotated piece_points rest

/-- `State::with_rotation` (`state.rs` lines 194-239). -/
def State.with_rotation (s : State) (rotation : Rtn) : Except SReduceError State :=
  match s.game.piece with
  | none => .error (.Move .NoPiece)
  | some piece =>
    let from_orientation := piece.orientation
    let to_orientation := from_orientation.rotated rotation
    let rotated_piece : Piece := { piece with orientation := to_orientation }
    let piece_points := rotated_piece.get_points
    if s.game.board.can_fit piece_points then
      .ok { s with game := { s.game with piece := some rotated_piece } }
    else
      match srs_kick_table piece.kind from_orientation to_orientation with
      | none => .error (.Move .InvalidMove)
      | some kicks => s.try_kicks rotated_piece piece_points kicks

/-- `State::with_translation` (`state.rs` lines 241-271). -/
def State.with_translation (s : State) (direction : Direction) :
    Except SReduceError State :=
  match s.game.piece with
  | none => .error (.Move .NoPiece)
  | some piece =>
    let next_piece : Piece := { piece with position := piece.position + direction.get_offset }
    if !(s.game.board.can_fit next_piece.get_points) then .error (.Move .InvalidMove)
    else .ok { s with game := { s.game with piece := some next_piece } }

/-- `State::with_placed_piece` (`state.rs` lines 273-295): fill the piece
cells and drop the active piece.  Note: no line clear, no change to
`is_hold_used`, no change to `moves_remaining`. -/
def State.with_placed_piece (s : State) : Except SReduceError State :=
  match s.game.piece with
  | none => .error (.Place .NoPiece)
  | some piece =>
    let piece_points := piece.get_points
    if !(s.game.board.can_place piece_points) then .error (.Place .PieceInAir)
    else
      .ok { s with game := { s.game with
              board := s.game.board.fill_piece_points piece_points,
              piece := none } }

/-- `State::with_move` (`state.rs` lines 187-192). -/
def State.with_move (s : State) : SMv → Except SReduceError State
  | .Rotate rotation => s.with_rotation rotation
  | .Translate direction => s.with_translation direction

/-- `State::reduce` (`state.rs` lines 86-94). -/
def State.reduce (s : State) : SAction → Except SReduceError State
  | .ConsumeQueue => s.with_consumed_queue
  | .GuessNext kind => s.with_guessed_next kind
  | .Hold switch => s.with_hold_used switch
  | .Move mov => s.with_move mov
  | .Place => s.with_placed_piece

/-! ## The `Play` action of the search-state reducer

`solver.rs` invokes `state_after_move.reduce(config, &Action::Play(GameAction::Place))`,
but the `state.rs` revision defining an `Action::Play` variant is not among
the sources (the shipped `state.rs` predates `solver.rs`). -/

/-- Search state for the `Play`-style reducer used by `solver.rs`. -/
structure PlayState where
  game : Game
  moves_remaining : Int
deriving DecidableEq, Repr

/-- Modelled from the spec: the `state.rs` revision with an `Action::Play`
variant called by `solver.rs` is missing from the sources.  Per §4.5 of the
spec — "`Play(action)`: delegate to the game reducer; decrement
`moves_remaining` iff the action is Place" — `Play` runs `Game::reduce`
(the in-source `game.rs` reducer) on the inner game and decrements the
move budget exactly when the action is `Place`. -/
def PlayState.play (s : PlayState) (cfg : Config) (action : Action) :
    Except ReduceError PlayState :=
  (s.game.reduce cfg action).map fun next_game =>
    { game := next_game,
      moves_remaining :=
        match action with
        | .Place => s.moves_remaining - 1
        | .Move _ => s.moves_remaining
        | .Hold _ => s.moves_remaining }

/-! ## The placement enumerator (`solver.rs`) -/

/-- Memo key of the enumerator (`solver.rs`, `PlaceablePiecesKey`). -/
abbrev PlaceKey := Point × Orientation

/-- `memo.contains_key(&key)` over the association-list memo. -/
def memo_contains (memo : List (PlaceKey × Bool)) (key : PlaceKey) : Bool :=
  memo.any fun e => e.1 == key

/-- `generate_placable_pieces` (`solver.rs` lines 167-194): depth-first
memoized traversal.  For each legal move primitive, reduce the game; if
the resulting piece's (position, orientation) key is new, record whether
it is placable (`board.can_place`) and recurse.  The source recurses on a
call stack; here the depth is bounded by explicit fuel — each nested call
follows a fresh memo insertion, so the depth never exceeds the number of
distinct keys (at most `14·24·4 < 2000` for any piece), and fuel 2000 can
never be exhausted.  The move list is `config.rs`'s `possible_moves`
(`solver.rs` names it `srs::POSSIBLE_MOVES`, a constant absent from the
sources; the spec §4.3 and `config.rs` agree on its contents). -/
def generate_placable_pieces (cfg : Config) :
    Nat → Game → List (PlaceKey × Bool) → List (PlaceKey × Bool)
  | 0, _, memo => memo
  | fuel + 1, g, memo =>
    cfg.possible_moves.foldl
      (fun memo mov =>
        match g.reduce cfg (.Move mov) with
        | .error _ => memo
        | .ok next_game =>
          match next_game.piece with
          | none => memo
          | some next_piece =>
            let key : PlaceKey := (next_piece.position, next_piece.orientation)
            if memo_contains memo key then memo
            else
              generate_placable_pieces cfg fuel next_game
                ((key, next_game.board.can_place next_piece.get_points) :: memo))
      memo

/-- The lockable keys produced by `branch_game_to_placable_pieces`
(`solver.rs` lines 142-162): the memo entries whose `is_placable` flag is
set. -/
def placable_keys (cfg : Config) (g : Game) : List PlaceKey :=
  match g.piece with
  | none => []
  | some _ =>
    ((generate_placable_pieces cfg 2000 g []).filter fun e => e.2).map fun e => e.1

/-- `branch_game_to_placable_pieces` (`solver.rs` lines 142-162): the games
with the active piece moved to each lockable key. -/
def branch_game_to_placable_pieces (cfg : Config) (g : Game) : List Game :=
  match g.piece with
  | none => []
  | some piece =>
    (placable_keys cfg g).map fun key =>
      { g with piece := some { piece with position := key.1, orientation := key.2 } }

/-! ## Helper lemmas -/

/-- The source's bit read `(fill >> idx) & 1 == 1` is `Nat.testBit`. -/
theorem shift_and_eq_testBit (m n : Nat) : ((m >>> n) &&& 1 == 1) = m.testBit n := by
  rw [Nat.and_one_is_mod, Nat.shiftRight_eq_div_pow, Nat.testBit_to_div_mod]
  rcases Nat.mod_two_eq_zero_or_one (m / 2 ^ n) with h | h <;> simp [h]

/-- In-window cells read the packed bit. -/
theorem is_filled_inrange (b : Board) (x y : Int)
    (hx0 : 0 ≤ x) (hx : x < 10) (hy0 : 0 ≤ y) (hy : y < 6) :
    b.is_filled ⟨x, y⟩ = b.fill.testBit (x + y * 10).toNat := by
  rw [Board.is_filled, if_neg (by simp; omega), if_neg (by simp; omega),
    shift_and_eq_testBit]

/-- In-window `fill_cell` ORs in the cell's bit. -/
theorem fill_cell_fill (b : Board) (p : Point)
    (hx0 : 0 ≤ p.x) (hx : p.x < 10) (hy0 : 0 ≤ p.y) (hy : p.y < 6) :
    (b.fill_cell p).fill = b.fill ||| 1 <<< (p.x + p.y * 10).toNat := by
  rw [Board.fill_cell, if_neg (by simp; omega)]

/-- Cell coordinates decompose the packed index uniquely. -/
theorem cell_index_inj (x y x' y' : Int)
    (hx0 : 0 ≤ x) (hx : x < 10) (hy0 : 0 ≤ y)
    (hx0' : 0 ≤ x') (hx' : x' < 10) (hy0' : 0 ≤ y')
    (h : (x + y * 10).toNat = (x' + y' * 10).toNat) : x = x' ∧ y = y' := by
  constructor <;> omega

/-- Reading any cell of a board after an in-window `fill_cell`. -/
theorem is_filled_fill_cell (b : Board) (p q : Point)
    (hx0 : 0 ≤ p.x) (hx : p.x < 10) (hy0 : 0 ≤ p.y) (hy : p.y < 6) :
    (b.fill_cell p).is_filled q = (decide (q = p) || b.is_filled q) := by
  by_cases hq : q.x < 0 ∨ 10 ≤ q.x ∨ q.y < 0
  · have hqp : q ≠ p := by
      intro h; subst h; omega
    rw [Board.is_filled, if_pos hq, Board.is_filled, if_pos hq]
    simp [hqp]
  · push_neg at hq
    obtain ⟨hqx0, hqx, hqy0⟩ := hq
    by_cases hqy : 6 ≤ q.y
    · have hqp : q ≠ p := by
        intro h; subst h; omega
      rw [Board.is_filled, if_neg (by omega), if_pos hqy,
        Board.is_filled, if_neg (by omega), if_pos hqy]
      simp [hqp]
    · push_neg at hqy
      have hq' : b.is_filled q = b.fill.testBit (q.x + q.y * 10).toNat := by
        rw [show q = (⟨q.x, q.y⟩ : Point) from rfl] at *
        exact is_filled_inrange b q.x q.y hqx0 hqx hqy0 hqy
      have hq'' : (b.fill_cell p).is_filled q =
          (b.fill_cell p).fill.testBit (q.x + q.y * 10).toNat := by
        rw [show q = (⟨q.x, q.y⟩ : Point) from rfl] at *
        exact is_filled_inrange _ q.x q.y hqx0 hqx hqy0 hqy
      rw [hq'', fill_cell_fill b p hx0 hx hy0 hy, Nat.testBit_or, Nat.one_shiftLeft,
        Nat.testBit_two_pow, hq']
      have : ((p.x + p.y * 10).toNat = (q.x + q.y * 10).toNat) ↔ q = p := by
        constructor
        · intro h
          obtain ⟨h1, h2⟩ := cell_index_inj p.x p.y q.x q.y hx0 hx hy0 hqx0 hqx hqy0 h
          cases q; cases p; simp_all
        · intro h; rw [h]
      rw [Bool.or_comm]
      congr 1
      simp [this]

/-- Rows at or above `n` of a board whose fill is below `2 ^ (10 n)` are
empty. -/
theorem is_filled_of_fill_lt (b : Board) (n : Nat) (hlt : b.fill < 2 ^ (10 * n))
    (x y : Int) (hx0 : 0 ≤ x) (hx : x < 10) (hy : (n : Int) ≤ y) :
    b.is_filled ⟨x, y⟩ = false := by
  by_cases h6 : 6 ≤ y
  · rw [Board.is_filled, if_neg (by simp; omega), if_pos (by simpa using h6)]
  · have hy0 : 0 ≤ y := le_trans (by positivity) hy
    rw [is_filled_inrange b x y hx0 hx hy0 (by omega)]
    refine Nat.testBit_eq_false_of_lt (lt_of_lt_of_le hlt ?_)
    exact Nat.pow_le_pow_right (by norm_num) (by omega)

/-! ## C8: `is_filled` boundary and bit semantics -/

/-- C8: for every board and point, `is_filled` returns true on walls
(`x < 0`, `x ≥ 10`) and below the floor (`y < 0`); otherwise it returns
false above the six-row window (`y ≥ 6`); otherwise it reads bit
`x + y*10` of the packed integer. -/
theorem is_filled_spec (b : Board) (p : Point) :
    (p.x < 0 ∨ 10 ≤ p.x ∨ p.y < 0 → b.is_filled p = true) ∧
    (0 ≤ p.x → p.x < 10 → 0 ≤ p.y → 6 ≤ p.y → b.is_filled p = false) ∧
    (0 ≤ p.x → p.x < 10 → 0 ≤ p.y → p.y < 6 →
      b.is_filled p = b.fill.testBit (p.x + p.y * 10).toNat) := by
  refine ⟨fun h => ?_, fun hx0 hx hy0 hy => ?_, fun hx0 hx hy0 hy => ?_⟩
  · rw [Board.is_filled, if_pos h]
  · rw [Board.is_filled, if_neg (by omega), if_pos hy]
  · exact is_filled_inrange b p.x p.y hx0 hx hy0 hy

/-- C8 witness: the walls, floor, above-window and bit-read cases at
concrete cells. -/
theorem is_filled_spec_witness :
    empty_board.is_filled ⟨-1, 3⟩ = true ∧
    empty_board.is_filled ⟨10, 2⟩ = true ∧
    empty_board.is_filled ⟨4, -1⟩ = true ∧
    filled_board.is_filled ⟨2, 7⟩ = false ∧
    filled_board.is_filled ⟨2, 3⟩ = filled_board.fill.testBit ((2 : Int) + 3 * 10).toNat :=
  ⟨(is_filled_spec empty_board ⟨-1, 3⟩).1 (by norm_num),
   (is_filled_spec empty_board ⟨10, 2⟩).1 (by norm_num),
   (is_filled_spec empty_board ⟨4, -1⟩).1 (by norm_num),
   (is_filled_spec filled_board ⟨2, 7⟩).2.1 (by norm_num) (by norm_num) (by norm_num) (by norm_num),
   (is_filled_spec filled_board ⟨2, 3⟩).2.2 (by norm_num) (by norm_num) (by norm_num) (by norm_num)⟩

/-! ## C2: `can_place` (corrected) -/

/-- C2 counterexample: on the fully filled board, four bottom-row points
overlap filled cells, so `can_fit` is false, yet `can_place` returns true
(the floor below them counts as filled).  This refutes the claim that
`can_place` is true only if `can_fit` holds. -/
theorem can_place_counterexample :
    filled_board.can_place [⟨0, 0⟩, ⟨1, 0⟩, ⟨2, 0⟩, ⟨3, 0⟩] = true ∧
    filled_board.can_fit [⟨0, 0⟩, ⟨1, 0⟩, ⟨2, 0⟩, ⟨3, 0⟩] = false := by
  constructor <;> decide

/-- C2 (amended): `can_place` is true iff at least one of the four points
shifted by (0, -1) reads filled (walls and floor counting as filled),
regardless of whether the four points themselves fit the board. -/
theorem can_place_spec (b : Board) (p1 p2 p3 p4 : Point) :
    b.can_place [p1, p2, p3, p4] = true ↔
      (b.is_filled ⟨p1.x, p1.y - 1⟩ = true ∨ b.is_filled ⟨p2.x, p2.y - 1⟩ = true ∨
       b.is_filled ⟨p3.x, p3.y - 1⟩ = true ∨ b.is_filled ⟨p4.x, p4.y - 1⟩ = true) := by
  show (List.any _ _ = true) ↔ _
  simp only [List.any_cons, List.any_nil, Bool.or_eq_true, Bool.or_false, Point.add_def]
  norm_num [sub_eq_add_neg]

/-! ## C1: the `Place` action of the game reducer -/

/-- C1: with an active piece whose cells satisfy `can_place`, `Place`
succeeds and produces the board with the four cells filled, cleared via
`clear_filled_lines` exactly when the filled board is not a canonical
perfect-clear mask, with no active piece; without `can_place` it fails
with `PieceInAir`; without a piece it fails with `NoPiece`. -/
theorem place_reduce_spec (g : Game) (cfg : Config) :
    (∀ p, g.piece = some p →
      (g.board.can_place p.get_points = true →
        g.reduce cfg .Place = .ok
          { g with
            board :=
              (if (g.board.fill_piece_points p.get_points).can_perfect_clear then
                g.board.fill_piece_points p.get_points
              else (g.board.fill_piece_points p.get_points).clear_filled_lines),
            piece := none, is_hold_used := false }) ∧
      (g.board.can_place p.get_points = false →
        g.reduce cfg .Place = .error (.Place .PieceInAir))) ∧
    (g.piece = none → g.reduce cfg .Place = .error (.Place .NoPiece)) := by
  refine ⟨fun p hp => ⟨fun hcan => ?_, fun hcan => ?_⟩, fun hp => ?_⟩
  · rw [Game.reduce, Game.with_placed_piece, hp]
    simp only [hcan]
    rcases h : (g.board.fill_piece_points p.get_points).can_perfect_clear <;>
      simp [h, Except.mapError]
  · rw [Game.reduce, Game.with_placed_piece, hp]
    simp [hcan, Except.mapError]
  · rw [Game.reduce, Game.with_placed_piece, hp]
    simp [Except.mapError]

/-- A concrete game for the C1 witness: an I piece resting on the floor of
an empty board. -/
def floor_i_game : Game :=
  { Game.initial with piece := some { Piece.spawn .I with position := ⟨3, -2⟩ } }

/-- C1 witness: placing the floor-resting I piece succeeds and fills cells
(3,0)…(6,0); raising it one row gives `PieceInAir`; removing it gives
`NoPiece`. -/
theorem place_reduce_spec_witness :
    floor_i_game.reduce Config.default .Place =
      .ok { floor_i_game with board := ⟨120⟩, piece := none, is_hold_used := false } ∧
    { floor_i_game with
        piece := some { Piece.spawn .I with position := ⟨3, -1⟩ } }.reduce
      Config.default .Place = .error (.Place .PieceInAir) ∧
    { floor_i_game with piece := none }.reduce Config.default .Place =
      .error (.Place .NoPiece) := by
  refine ⟨?_, ?_, ?_⟩
  · have h := ((place_reduce_spec floor_i_game Config.default).1
      { Piece.spawn .I with position := ⟨3, -2⟩ } rfl).1 (by decide)
    rw [h]; decide
  · exact ((place_reduce_spec _ Config.default).1
      { Piece.spawn .I with position := ⟨3, -1⟩ } rfl).2 (by decide)
  · exact (place_reduce_spec _ Config.default).2 rfl

/-! ## C7: the `Hold` action of the game reducer -/

/-- C7: with the hold unused, `Hold false` succeeds, sets `is_hold_used`
and leaves everything else (in particular the active piece) unchanged;
`Hold true` fails with `NoHoldPiece` / `PieceCollision` / `NoPiece` in the
source's check order, and otherwise stores the active piece's kind in the
hold and respawns the held kind at North at its configured spawn point;
with the hold already used, either form fails with `NotAvailable`. -/
theorem hold_reduce_spec (g : Game) (cfg : Config) :
    (g.is_hold_used = false →
      g.reduce cfg (.Hold false) = .ok { g with is_hold_used := true }) ∧
    (g.is_hold_used = false → g.hold_kind = none →
      g.reduce cfg (.Hold true) = .error (.Hold .NoHoldPiece)) ∧
    (∀ hk, g.is_hold_used = false → g.hold_kind = some hk →
      g.board.can_fit (Piece.spawn hk).get_points = false →
      g.reduce cfg (.Hold true) = .error (.Hold .PieceCollision)) ∧
    (∀ hk, g.is_hold_used = false → g.hold_kind = some hk →
      g.board.can_fit (Piece.spawn hk).get_points = true → g.piece = none →
      g.reduce cfg (.Hold true) = .error (.Hold .NoPiece)) ∧
    (∀ hk p, g.is_hold_used = false → g.hold_kind = some hk →
      g.board.can_fit (Piece.spawn hk).get_points = true → g.piece = some p →
      g.reduce cfg (.Hold true) = .ok
        { g with is_hold_used := true,
                 piece := some { kind := hk, position := hk.get_spawn_point,
                                 orientation := .North },
                 hold_kind := some p.kind }) ∧
    (∀ sw, g.is_hold_used = true →
      g.reduce cfg (.Hold sw) = .error (.Hold .NotAvailable)) := by
  refine ⟨fun hu => ?_, fun hu hh => ?_, fun hk hu hh hfit => ?_,
    fun hk hu hh hfit hp => ?_, fun hk p hu hh hfit hp => ?_, fun sw hu => ?_⟩
  · rw [Game.reduce, Game.with_hold_used, hu]; rfl
  · rw [Game.reduce, Game.with_hold_used, hu, hh]; rfl
  · rw [Game.reduce, Game.with_hold_used, hu, hh]; simp [hfit, Except.mapError]
  · rw [Game.reduce, Game.with_hold_used, hu, hh]; simp [hfit, hp, Except.mapError]
  · rw [Game.reduce, Game.with_hold_used, hu, hh]
    simp only [Piece.spawn] at hfit
    simp [hfit, hp, Except.mapError, Piece.spawn]
  · rw [Game.reduce, Game.with_hold_used, hu]; rfl

/-- A concrete game for the C7 witness: J active, I held, empty board. -/
def hold_ij_game : Game :=
  { Game.initial with piece := some (Piece.spawn .J), hold_kind := some .I }

/-- C7 witness: holding without switch locks the hold flag; switching
swaps the held I in at its North spawn and stores J; with the flag set the
action is `NotAvailable`. -/
theorem hold_reduce_spec_witness :
    hold_ij_game.reduce Config.default (.Hold false) =
      .ok { hold_ij_game with is_hold_used := true } ∧
    hold_ij_game.reduce Config.default (.Hold true) =
      .ok { hold_ij_game with is_hold_used := true, piece := some (Piece.spawn .I), hold_kind := some .J } ∧
    { hold_ij_game with is_hold_used := true }.reduce Config.default (.Hold true) =
      .error (.Hold .NotAvailable) :=
  ⟨(hold_reduce_spec hold_ij_game Config.default).1 rfl,
   (hold_reduce_spec hold_ij_game Config.default).2.2.2.2.1 .I (Piece.spawn .J)
     rfl rfl (by decide) rfl,
   (hold_reduce_spec _ Config.default).2.2.2.2.2 true rfl⟩

/-! ## C3: `Play` decrements the move budget only on `Place` -/

/-- Shape of a successful game-level `Place` (`game.rs` lines 200-205):
the hold flag is reset and the piece is cleared. -/
theorem with_placed_piece_shape (g g' : Game)
    (h : g.with_placed_piece = .ok g') :
    g'.is_hold_used = false ∧ g'.piece = none := by
  rw [Game.with_placed_piece] at h
  cases hp : g.piece with
  | none => rw [hp] at h; cases h
  | some p =>
    rw [hp] at h
    cases hcan : g.board.can_place p.get_points with
    | false => simp [hcan] at h
    | true =>
      simp only [hcan, Bool.not_true, Bool.false_eq_true, if_false,
        Except.ok.injEq] at h
      subst h
      exact ⟨rfl, rfl⟩

/-- C3: a successful `Play Place` decrements `moves_remaining` by one and
leaves `is_hold_used` false; successful `Play Move` and `Play Hold`
actions leave `moves_remaining` unchanged. -/
theorem play_place_spec (s : PlayState) (cfg : Config) :
    (∀ s', s.play cfg .Place = .ok s' →
      s'.moves_remaining = s.moves_remaining - 1 ∧
      s'.game.is_hold_used = false) ∧
    (∀ mov s', s.play cfg (.Move mov) = .ok s' →
      s'.moves_remaining = s.moves_remaining) ∧
    (∀ sw s', s.play cfg (.Hold sw) = .ok s' →
      s'.moves_remaining = s.moves_remaining) := by
  refine ⟨fun s' h => ?_, fun mov s' h => ?_, fun sw s' h => ?_⟩
  · rw [PlayState.play, Game.reduce] at h
    cases hg : s.game.with_placed_piece with
    | error e => rw [hg] at h; cases h
    | ok a =>
      rw [hg] at h
      cases h
      exact ⟨rfl, (with_placed_piece_shape s.game a hg).1⟩
  · rw [PlayState.play, Game.reduce] at h
    cases hg : s.game.with_moved_piece cfg mov with
    | error e => rw [hg] at h; cases h
    | ok a => rw [hg] at h; cases h; rfl
  · rw [PlayState.play, Game.reduce] at h
    cases hg : s.game.with_hold_used sw with
    | error e => rw [hg] at h; cases h
    | ok a => rw [hg] at h; cases h; rfl

/-- A concrete search state for the C3 witness. -/
def play_state : PlayState := { game := floor_i_game, moves_remaining := 10 }

/-- The game after placing the floor-resting I piece. -/
def placed_floor_game : Game :=
  { floor_i_game with board := ⟨120⟩, piece := none, is_hold_used := false }

/-- C3 witness: playing `Place` on the floor-resting I piece with budget
10 yields budget 9 and a cleared hold flag. -/
theorem play_place_spec_witness :
    ∃ s', play_state.play Config.default .Place = .ok s' ∧
      s'.moves_remaining = 10 - 1 ∧ s'.game.is_hold_used = false := by
  have h : play_state.play Config.default .Place =
      .ok { game := placed_floor_game, moves_remaining := 9 } := by decide
  exact ⟨_, h, (play_place_spec play_state Config.default).1 _ h⟩

/-! ## C5: queue consumption and speculative injection (corrected) -/

/-- A state with the hold flag set and no active piece. -/
def held_state : State :=
  { State.initial with game := { State.initial.game with is_hold_used := true } }

/-- `held_state` after speculatively injecting a J piece. -/
def held_state_after_guess : State :=
  { held_state with game := { held_state.game with piece := some (Piece.spawn .J) } }

/-- C5 counterexample: speculative next-piece injection (`GuessNext`)
succeeds on `held_state` and makes a new piece active, yet the resulting
`is_hold_used` is still true — refuting "whenever a new piece becomes
active (queue consumption or speculative injection) the resulting state's
`is_hold_used` is false".  (The spawn-collision failure is `GameOver` in
this revision, not `PieceCollision`.) -/
theorem consume_queue_counterexample :
    held_state.reduce (.GuessNext .J) = .ok held_state_after_guess ∧
    held_state_after_guess.game.is_hold_used = true := by
  constructor <;> decide

/-- C5 (amended): `ConsumeQueue` pops the front of the queue and fails
with `GameOver` (not `PieceCollision`) when the spawned piece cannot fit;
queue consumption resets `is_hold_used` to false, but speculative
injection leaves `is_hold_used` unchanged. -/
theorem consume_queue_spec (s : State) :
    (∀ k rest, s.game.queue = some k :: rest →
      (s.game.board.can_fit (Piece.spawn k).get_points = false →
        s.reduce .ConsumeQueue = .error .GameOver) ∧
      (s.game.board.can_fit (Piece.spawn k).get_points = true →
        s.reduce .ConsumeQueue = .ok { s with game := { s.game with queue := rest ++ [none], piece := some (Piece.spawn k), is_hold_used := false } })) ∧
    (s.game.queue = [] → s.reduce .ConsumeQueue = .error (.ConsumeQueue .QueueEmpty)) ∧
    (∀ rest, s.game.queue = none :: rest →
      s.reduce .ConsumeQueue = .error (.ConsumeQueue .QueueEmpty)) ∧
    (∀ k s', s.reduce (.GuessNext k) = .ok s' →
      s'.game.is_hold_used = s.game.is_hold_used ∧
      s'.game.piece = some (Piece.spawn k)) := by
  refine ⟨fun k rest hq => ⟨fun hfit => ?_, fun hfit => ?_⟩,
    fun hq => ?_, fun rest hq => ?_, fun k s' h => ?_⟩
  · rw [State.reduce, State.with_consumed_queue, hq]; simp [hfit]
  · rw [State.reduce, State.with_consumed_queue, hq]; simp [hfit]
  · rw [State.reduce, State.with_consumed_queue, hq]
  · rw [State.reduce, State.with_consumed_queue, hq]
  · rw [State.reduce, State.with_guessed_next] at h
    cases hfit : s.game.board.can_fit (Piece.spawn k).get_points with
    | false => simp [hfit] at h
    | true =>
      simp only [hfit, Bool.not_true, Bool.false_eq_true, if_false,
        Except.ok.injEq] at h
      subst h
      exact ⟨rfl, rfl⟩

/-- A state with an I piece at the front of the queue. -/
def queued_state : State :=
  { State.initial with game := { State.initial.game with queue := [some .I, none, none, none, none, none, none] } }

/-- C5 witness: consuming `queued_state`'s queue activates the I piece,
drops it from the queue, and resets the hold flag. -/
theorem consume_queue_spec_witness :
    queued_state.reduce .ConsumeQueue = .ok { queued_state with game := { queued_state.game with queue := [none, none, none, none, none, none] ++ [none], piece := some (Piece.spawn .I), is_hold_used := false } } :=
  ((consume_queue_spec queued_state).1 .I [none, none, none, none, none, none]
    rfl).2 (by decide)

/-! ## C6: rotation with kicks -/

/-- The kick loop accepts the first kick (in table order) whose translated
points fit. -/
theorem try_kicks_eq_find (g : Game) (rotated : Piece) (pts : List Point)
    (kicks : List Point) :
    g.try_kicks rotated pts kicks =
      (match kicks.find? (fun k => g.board.can_fit (pts.map (· + k))) with
       | some k => .ok { g with piece := some { rotated with position := rotated.position + k } }
       | none => .error .InvalidMove) := by
  induction kicks with
  | nil => rfl
  | cons k rest ih =>
    rw [Game.try_kicks, List.find?_cons]
    cases hk : g.board.can_fit (pts.map (· + k)) with
    | false => simpa [hk] using ih
    | true => simp [hk]

/-- C6: rotating first tries the rotated piece in place; failing that, it
tries the kicks from `kick_table` in order and accepts the first that
fits, adding it to the position; a missing table (as for the O piece, for
every transition) or no fitting kick gives `InvalidMove`; no piece gives
`NoPiece`. -/
theorem rotate_reduce_spec (g : Game) (cfg : Config) (r : Rtn) :
    (g.piece = none → g.reduce cfg (.Move (.Rotate r)) = .error (.Move .NoPiece)) ∧
    (∀ p, g.piece = some p →
      (g.board.can_fit (Piece.get_points { p with orientation := p.orientation.rotated r }) = true →
        g.reduce cfg (.Move (.Rotate r)) =
          .ok { g with piece := some { p with orientation := p.orientation.rotated r } }) ∧
      (g.board.can_fit (Piece.get_points { p with orientation := p.orientation.rotated r }) = false →
        (cfg.kick_table p.kind p.orientation (p.orientation.rotated r) = none →
          g.reduce cfg (.Move (.Rotate r)) = .error (.Move .InvalidMove)) ∧
        (∀ kicks, cfg.kick_table p.kind p.orientation (p.orientation.rotated r) = some kicks →
          (∀ k, kicks.find? (fun k => g.board.can_fit ((Piece.get_points { p with orientation := p.orientation.rotated r }).map (· + k))) = some k →
            g.reduce cfg (.Move (.Rotate r)) =
              .ok { g with piece := some { p with orientation := p.orientation.rotated r, position := p.position + k } }) ∧
          (kicks.find? (fun k => g.board.can_fit ((Piece.get_points { p with orientation := p.orientation.rotated r }).map (· + k))) = none →
            g.reduce cfg (.Move (.Rotate r)) = .error (.Move .InvalidMove))))) ∧
    (∀ from_o to_o, cfg.kick_table .O from_o to_o = none) := by
  refine ⟨fun hp => ?_, fun p hp => ⟨fun hfit => ?_, fun hfit =>
    ⟨fun hkt => ?_, fun kicks hkt => ⟨fun k hfind => ?_, fun hfind => ?_⟩⟩⟩,
    fun from_o to_o => ?_⟩
  · rw [Game.reduce, Game.with_moved_piece, Game.with_rotated_piece, hp]
    rfl
  · rw [Game.reduce, Game.with_moved_piece, Game.with_rotated_piece, hp]
    simp [hfit, Except.mapError]
  · rw [Game.reduce, Game.with_moved_piece, Game.with_rotated_piece, hp]
    simp [hfit, hkt, Except.mapError]
  · rw [Game.reduce, Game.with_moved_piece, Game.with_rotated_piece, hp]
    simp only [hfit, Bool.false_eq_true, if_false, hkt, try_kicks_eq_find, hfind]
    rfl
  · rw [Game.reduce, Game.with_moved_piece, Game.with_rotated_piece, hp]
    simp only [hfit, Bool.false_eq_true, if_false, hkt, try_kicks_eq_find, hfind]
    rfl
  · cases cfg.kick
    rfl

/-- The nearly full board of the source's `kick_one` test: everything
filled except the row-2 slot (3..6, 2) and the column (3, 0..3). -/
def kick_board : Board := ⟨1152921495891075063⟩

/-- The `kick_one` game: I piece at (3, 0) in `kick_board`. -/
def kick_game : Game :=
  { Game.initial with board := kick_board, piece := some { Piece.spawn .I with position := ⟨3, 0⟩ } }

/-- C6 witness: rotating the `kick_one` I piece clockwise fails in place
and succeeds on the first kick (-2, 0), landing East at (1, 0); the O
piece has no kick table. -/
theorem rotate_reduce_spec_witness :
    kick_game.reduce Config.default (.Move (.Rotate .Clockwise)) =
      .ok { kick_game with piece := some { kind := .I, position := ⟨1, 0⟩, orientation := .East } } ∧
    Config.default.kick_table .O .North .East = none := by
  constructor
  · have h := (((rotate_reduce_spec kick_game Config.default .Clockwise).2.1
      { Piece.spawn .I with position := ⟨3, 0⟩ } rfl).2 (by decide)).2
      [⟨-2, 0⟩, ⟨1, 0⟩, ⟨-2, -1⟩, ⟨1, 2⟩] (by decide) |>.1 ⟨-2, 0⟩ (by decide)
    rw [h]; decide
  · exact (rotate_reduce_spec Game.initial Config.default .Clockwise).2.2 .North .East

/-! ## C10: `Move` actions only change the piece -/

/-- The kick loop, when it succeeds, only replaces the piece. -/
theorem try_kicks_shape (g : Game) (rotated : Piece) (pts : List Point)
    (kicks : List Point) (g' : Game)
    (h : g.try_kicks rotated pts kicks = .ok g') :
    ∃ q, g' = { g with piece := some q } := by
  induction kicks with
  | nil => cases h
  | cons k rest ih =>
    rw [Game.try_kicks] at h
    cases hk : g.board.can_fit (pts.map (· + k)) with
    | false =>
      rw [hk] at h
      exact ih h
    | true =>
      rw [hk] at h
      simp only [if_true, Except.ok.injEq] at h
      exact ⟨_, h.symm⟩

/-- A successful `with_moved_piece` only replaces the piece. -/
theorem with_moved_piece_shape (g : Game) (cfg : Config) (mov : Mv) (g' : Game)
    (h : g.with_moved_piece cfg mov = .ok g') :
    ∃ q, g' = { g with piece := some q } := by
  cases mov with
  | Rotate r =>
    rw [Game.with_moved_piece, Game.with_rotated_piece] at h
    cases hp : g.piece with
    | none => rw [hp] at h; cases h
    | some p =>
      rw [hp] at h
      cases hfit : g.board.can_fit (Piece.get_points { p with orientation := p.orientation.rotated r }) with
      | true =>
        simp only [hfit, if_true, Except.ok.injEq] at h
        exact ⟨_, h.symm⟩
      | false =>
        simp only [hfit, Bool.false_eq_true, if_false] at h
        cases hkt : cfg.kick_table p.kind p.orientation (p.orientation.rotated r) with
        | none => rw [hkt] at h; cases h
        | some kicks =>
          rw [hkt] at h
          exact try_kicks_shape _ _ _ _ _ h
  | Translate d =>
    rw [Game.with_moved_piece, Game.with_translated_piece] at h
    cases hp : g.piece with
    | none => rw [hp] at h; cases h
    | some p =>
      rw [hp] at h
      cases hfit : g.board.can_fit (Piece.get_points { p with position := p.position + d.get_offset }) with
      | false =>
        simp only [Point.add_def] at hfit
        simp [hfit] at h
      | true =>
        simp only [Point.add_def] at hfit
        simp only [Point.add_def, hfit, Bool.not_true, Bool.false_eq_true,
          if_false, Except.ok.injEq] at h
        exact ⟨_, h.symm⟩
  | Drop =>
    rw [Game.with_moved_piece, Game.with_dropped_piece] at h
    cases hp : g.piece with
    | none => rw [hp] at h; cases h
    | some p =>
      rw [hp] at h
      cases hy : (drop_loop g.board (p.position.y.toNat + 8) p).position.y + 1 == p.position.y with
      | true => simp [hy] at h
      | false =>
        simp only [hy, Bool.false_eq_true, if_false, Except.ok.injEq] at h
        exact ⟨_, h.symm⟩

/-- C10: a successful `Move` (rotation, translation or drop) leaves
board, hold kind, hold flag and queue unchanged; only the piece may
change. -/
theorem move_frame_spec (g g' : Game) (cfg : Config) (mov : Mv)
    (h : g.reduce cfg (.Move mov) = .ok g') :
    g'.board = g.board ∧ g'.hold_kind = g.hold_kind ∧
    g'.is_hold_used = g.is_hold_used ∧ g'.queue = g.queue := by
  rw [Game.reduce] at h
  cases hm : g.with_moved_piece cfg mov with
  | error e => rw [hm] at h; cases h
  | ok a =>
    rw [hm] at h
    cases h
    obtain ⟨q, rfl⟩ := with_moved_piece_shape g cfg mov _ hm
    exact ⟨rfl, rfl, rfl, rfl⟩

/-- An I piece freshly spawned in an empty board. -/
def i_spawn_game : Game := { Game.initial with piece := some (Piece.spawn .I) }

/-- C10 witness: hard-dropping the spawned I piece reaches the floor and
changes none of the frame fields. -/
theorem move_frame_spec_witness :
    floor_i_game.board = i_spawn_game.board ∧
    floor_i_game.hold_kind = i_spawn_game.hold_kind ∧
    floor_i_game.is_hold_used = i_spawn_game.is_hold_used ∧
    floor_i_game.queue = i_spawn_game.queue :=
  move_frame_spec i_spawn_game floor_i_game Config.default .Drop (by decide)

/-! ## C4: `clear_filled_lines` (corrected)

The loop of `clear_filled_lines` is characterised row by row: writing
`survivors` for the non-full rows of the input in bottom-up order, row `j`
of the output equals row `survivors[j]` of the input, and rows at or above
`survivors.length` are empty.  The characterisation is proved by an
invariant on the fold; the bound `fill < 2 ^ (10 · k)` expresses that the
rows at or above the running count `k` of the partially built board are
still empty. -/

/-- A low `fill_cell` keeps the fill below `2 ^ (10 n)` when the cell's
row is below `n`. -/
theorem fill_cell_fill_lt (b : Board) (p : Point) (n : Nat)
    (hb : b.fill < 2 ^ (10 * n)) (hpy : p.y < (n : Int)) :
    (b.fill_cell p).fill < 2 ^ (10 * n) := by
  rw [Board.fill_cell]
  split
  · exact hb
  · rename_i h
    push_neg at h
    refine Nat.or_lt_two_pow hb ?_
    rw [Nat.one_shiftLeft]
    exact Nat.pow_lt_pow_right (by norm_num) (by omega)

/-- The inner fold of `copy_row` preserves the fill bound for its target
row. -/
theorem copy_fold_fill_lt (src : Board) (y : Int) (n : Nat) (xs : List Nat) :
    ∀ dst : Board, dst.fill < 2 ^ (10 * (n + 1)) →
    ((xs.foldl
      (fun (acc : Board) (x : Nat) =>
        if src.is_filled ⟨(x : Int), y⟩ then acc.fill_cell ⟨(x : Int), (n : Int)⟩ else acc)
      dst)).fill < 2 ^ (10 * (n + 1)) := by
  induction xs with
  | nil => exact fun dst h => h
  | cons x xs ih =>
    intro dst h
    rw [List.foldl_cons]
    apply ih
    split
    · exact fill_cell_fill_lt dst _ (n + 1) h (by push_cast; omega)
    · exact h

/-- `copy_row` into row `n` keeps the fill below `2 ^ (10 (n+1))`. -/
theorem copy_row_fill_lt (src dst : Board) (y : Int) (n : Nat)
    (hd : dst.fill < 2 ^ (10 * (n + 1))) :
    (copy_row src dst y (n : Int)).fill < 2 ^ (10 * (n + 1)) :=
  copy_fold_fill_lt src y n (List.range 10) dst hd

/-- Reading any cell after the inner fold of `copy_row`: row `n` gains the
copied cells of row `y` of `src`, everything else is unchanged. -/
theorem copy_fold_is_filled (src : Board) (y : Int) (n : Nat) (hn : n < 6)
    (xs : List Nat) (hxs : ∀ x ∈ xs, x < 10) :
    ∀ (dst : Board) (q : Point),
    ((xs.foldl
      (fun (acc : Board) (x : Nat) =>
        if src.is_filled ⟨(x : Int), y⟩ then acc.fill_cell ⟨(x : Int), (n : Int)⟩ else acc)
      dst)).is_filled q
    = ((decide (q.y = (n : Int)) &&
        xs.any (fun (x : Nat) => decide (q.x = (x : Int)) && src.is_filled ⟨(x : Int), y⟩)) ||
       dst.is_filled q) := by
  induction xs with
  | nil => intro dst q; simp
  | cons x xs ih =>
    intro dst q
    have hx : (x : Int) < 10 := by exact_mod_cast hxs x (.head _)
    have ih' := ih fun z hz => hxs z (.tail _ hz)
    rw [List.foldl_cons, List.any_cons]
    cases hsrc : src.is_filled ⟨(x : Int), y⟩ with
    | false =>
      rw [if_neg (by simp [hsrc]), ih' dst q]
      simp
    | true =>
      rw [if_pos (by simp [hsrc]), ih' _ q,
        is_filled_fill_cell dst ⟨(x : Int), (n : Int)⟩ q (by positivity) hx
          (by positivity) (by change (n : Int) < 6; exact_mod_cast hn)]
      have hq : (decide (q = (⟨(x : Int), (n : Int)⟩ : Point)))
          = (decide (q.x = (x : Int)) && decide (q.y = (n : Int))) := by
        cases q
        simp [Point.mk.injEq, Bool.and_comm, and_comm]
      rw [hq]
      cases hA : decide (q.y = (n : Int)) <;> cases hB : decide (q.x = (x : Int)) <;> simp

/-- Picking the matching column out of the `for x in 0..10` disjunction. -/
theorem range_any_eq (qx : Int) (f : Int → Bool) (hq0 : 0 ≤ qx) (hq : qx < 10) :
    ((List.range 10).any fun (x : Nat) => decide (qx = (x : Int)) && f (x : Int)) = f qx := by
  cases hf : f qx with
  | true =>
    rw [List.any_eq_true]
    refine ⟨qx.toNat, List.mem_range.mpr (by omega), ?_⟩
    have hqx : ((qx.toNat : Nat) : Int) = qx := Int.toNat_of_nonneg hq0
    rw [hqx, hf]
    simp
  | false =>
    rw [← Bool.not_eq_true, List.any_eq_true]
    push_neg
    intro x hx
    by_cases hqx : qx = (x : Int)
    · have : f (x : Int) = false := hqx ▸ hf
      simp [this]
    · simp [hqx]

/-- Reading any in-range cell after `copy_row`. -/
theorem copy_row_is_filled (src dst : Board) (y : Int) (n : Nat) (hn : n < 6)
    (q : Point) :
    (copy_row src dst y (n : Int)).is_filled q
    = ((decide (q.y = (n : Int)) &&
        (List.range 10).any (fun (x : Nat) => decide (q.x = (x : Int)) && src.is_filled ⟨(x : Int), y⟩)) ||
       dst.is_filled q) :=
  copy_fold_is_filled src y n hn (List.range 10)
    (fun _ hx => List.mem_range.mp hx) dst q

/-- Invariant of the `for y in 0..6` fold of `clear_filled_lines`:
processing the remaining rows `ys` appends their surviving rows to the
`placed` list; the counter tracks `placed.length`, the rows at or above it
are empty, and row `jj` of the partial board equals row `placed[jj]` of
the input. -/
theorem clear_fold_is_filled (b : Board) (ys : List Nat) :
    ∀ (placed : List Nat) (dst : Board),
    (∀ y ∈ ys, y < 6) →
    placed.length + ys.length ≤ 6 →
    dst.fill < 2 ^ (10 * placed.length) →
    (∀ jj : Nat, jj < placed.length → ∀ xx : Int, 0 ≤ xx → xx < 10 →
      dst.is_filled ⟨xx, (jj : Int)⟩ = b.is_filled ⟨xx, ((placed.getD jj 0 : Nat) : Int)⟩) →
    ((ys.foldl (clear_step b) (dst, (placed.length : Int))).2
        = ((placed ++ ys.filter fun (y : Nat) => !(b.is_line_filled (y : Int))).length : Int) ∧
     (ys.foldl (clear_step b) (dst, (placed.length : Int))).1.fill
        < 2 ^ (10 * (placed ++ ys.filter fun (y : Nat) => !(b.is_line_filled (y : Int))).length) ∧
     (∀ jj : Nat,
       jj < (placed ++ ys.filter fun (y : Nat) => !(b.is_line_filled (y : Int))).length →
       ∀ xx : Int, 0 ≤ xx → xx < 10 →
       (ys.foldl (clear_step b) (dst, (placed.length : Int))).1.is_filled ⟨xx, (jj : Int)⟩
         = b.is_filled ⟨xx, (((placed ++ ys.filter fun (y : Nat) => !(b.is_line_filled (y : Int))).getD jj 0 : Nat) : Int)⟩)) := by
  induction ys with
  | nil =>
    intro placed dst _ _ hlt hrow
    simp only [List.foldl_nil, List.filter_nil, List.append_nil]
    exact ⟨trivial, hlt, hrow⟩
  | cons y ys ih =>
    intro placed dst hys hlen hlt hrow
    rw [List.foldl_cons, List.filter_cons]
    cases hline : b.is_line_filled (y : Int) with
    | true =>
      rw [show clear_step b (dst, (placed.length : Int)) y = (dst, (placed.length : Int)) by
        rw [clear_step, if_pos hline]]
      simpa [hline] using
        ih placed dst (fun z hz => hys z (.tail _ hz)) (by simp at hlen ⊢; omega) hlt hrow
    | false =>
      rw [show clear_step b (dst, (placed.length : Int)) y
          = (copy_row b dst (y : Int) (placed.length : Int), (placed.length : Int) + 1) by
        rw [clear_step, if_neg (by simp [hline])]]
      have hy6 : y < 6 := hys y (.head _)
      have hlen5 : placed.length < 6 := by simp at hlen; omega
      have hbound : (copy_row b dst (y : Int) (placed.length : Int)).fill
          < 2 ^ (10 * (placed ++ [y]).length) := by
        have := copy_row_fill_lt b dst (y : Int) placed.length
          (lt_of_lt_of_le hlt (Nat.pow_le_pow_right (by norm_num) (by omega)))
        simpa using this
      have hrow' : ∀ jj : Nat, jj < (placed ++ [y]).length → ∀ xx : Int, 0 ≤ xx → xx < 10 →
          (copy_row b dst (y : Int) (placed.length : Int)).is_filled ⟨xx, (jj : Int)⟩
            = b.is_filled ⟨xx, (((placed ++ [y]).getD jj 0 : Nat) : Int)⟩ := by
        intro jj hjj xx hxx0 hxx
        rw [copy_row_is_filled b dst (y : Int) placed.length hlen5 ⟨xx, (jj : Int)⟩]
        dsimp only
        by_cases hjl : jj = placed.length
        · subst hjl
          rw [range_any_eq xx (fun z => b.is_filled ⟨z, (y : Int)⟩) hxx0 hxx,
            is_filled_of_fill_lt dst placed.length hlt xx (placed.length : Int) hxx0 hxx le_rfl]
          simp [List.getD_append_right]
        · have hjj' : jj < placed.length := by simp at hjj; omega
          have hne : (decide ((jj : Int) = (placed.length : Int))) = false := by
            simp; omega
          rw [hne]
          simp only [Bool.false_and, Bool.false_or]
          rw [hrow jj hjj' xx hxx0 hxx, List.getD_append _ _ _ _ hjj']
      have := ih (placed ++ [y]) (copy_row b dst (y : Int) (placed.length : Int))
        (fun z hz => hys z (.tail _ hz)) (by simp at hlen ⊢; omega) hbound hrow'
      rw [show ((placed ++ [y]).length : Int) = (placed.length : Int) + 1 by simp] at this
      simpa [hline, List.append_assoc] using this

/-- C4 (amended): `clear_filled_lines` removes exactly the fully filled
rows: writing `survivors` for the non-full rows in bottom-up order, output
row `j` equals input row `survivors[j]` (so the relative vertical order of
surviving cells is preserved and each surviving row drops by the number of
filled rows below it), and every output row at or above
`survivors.length` — in particular each freshly vacated top row — is
empty.  The compaction applies to all six window rows, including rows 4
and 5 above the PC window. -/
theorem clear_filled_lines_spec (b : Board) (x j : Int)
    (hx0 : 0 ≤ x) (hx : x < 10) (hj : 0 ≤ j) :
    b.clear_filled_lines.is_filled ⟨x, j⟩ =
      (if _h : j.toNat < ((List.range 6).filter fun (y : Nat) => !(b.is_line_filled (y : Int))).length
       then b.is_filled
         ⟨x, ((((List.range 6).filter fun (y : Nat) => !(b.is_line_filled (y : Int))).getD j.toNat 0 : Nat) : Int)⟩
       else false) := by
  have main := clear_fold_is_filled b (List.range 6) [] empty_board
    (fun y hy => List.mem_range.mp hy) (by simp)
    (by norm_num [empty_board]) (by intro jj h; simp at h)
  rw [Board.clear_filled_lines]
  obtain ⟨-, hlt, hrows⟩ := main
  by_cases hcase :
      j.toNat < ((List.range 6).filter fun (y : Nat) => !(b.is_line_filled (y : Int))).length
  · rw [dif_pos hcase]
    have := hrows j.toNat (by simpa using hcase) x hx0 hx
    rw [Int.toNat_of_nonneg hj] at this
    simpa using this
  · rw [dif_neg hcase]
    refine is_filled_of_fill_lt _ _ (by simpa using hlt) x j hx0 hx ?_
    simp only [List.nil_append] at hcase ⊢
    omega

/-- The board refuting the unamended C4: row 0 fully filled plus the cell
(0, 5) above the PC window (`fill = (2^10 - 1) + 2^50`). -/
def c4_board : Board := ⟨1023 + 1125899906842624⟩

/-- C4 counterexample: clearing `c4_board`'s full bottom row moves the
cell (0, 5) — which lies above the PC window — down to (0, 4), refuting
"does not move any cell above the PC window (rows 4 and 5 stay in
place)". -/
theorem clear_filled_lines_counterexample :
    c4_board.is_filled ⟨0, 5⟩ = true ∧
    c4_board.clear_filled_lines.is_filled ⟨0, 4⟩ = true ∧
    c4_board.clear_filled_lines.is_filled ⟨0, 5⟩ = false := by
  refine ⟨by decide, by decide, by decide⟩

/-- C4 witness: the characterisation evaluated on `c4_board` at cell
(0, 0): row 0 of the cleared board is row 1 of the input. -/
theorem clear_filled_lines_spec_witness :
    c4_board.clear_filled_lines.is_filled ⟨0, 0⟩ =
      (if _h : (0 : Int).toNat < ((List.range 6).filter fun (y : Nat) => !(c4_board.is_line_filled (y : Int))).length
       then c4_board.is_filled
         ⟨0, ((((List.range 6).filter fun (y : Nat) => !(c4_board.is_line_filled (y : Int))).getD (0 : Int).toNat 0 : Nat) : Int)⟩
       else false) :=
  clear_filled_lines_spec c4_board 0 0 (by norm_num) (by norm_num) (by norm_num)

/-! ## C9: the placement enumerator for an I piece in an empty board -/

set_option maxHeartbeats 4000000 in
/-- C9: for an I piece spawned in an empty board under the default move
set, the placement enumerator returns exactly 34 distinct lockable
(position, orientation) keys: 10 East, 10 West, 7 North and 7 South. -/
theorem i_piece_placements_spec :
    (placable_keys Config.default i_spawn_game).length = 34 ∧
    (placable_keys Config.default i_spawn_game).Nodup ∧
    ((placable_keys Config.default i_spawn_game).filter fun k => k.2 = .East).length = 10 ∧
    ((placable_keys Config.default i_spawn_game).filter fun k => k.2 = .West).length = 10 ∧
    ((placable_keys Config.default i_spawn_game).filter fun k => k.2 = .North).length = 7 ∧
    ((placable_keys Config.default i_spawn_game).filter fun k => k.2 = .South).length = 7 := by
  decide

end PerfectClear
